import Mathlib

/-!
Verification of the OpenSSH public-key decoder in
`src/cryptography/hazmat/primitives/serialization.py`.

Bytes are modelled as `List Nat` (each entry a byte value). Python
exceptions are modelled by the `PyError` type: `valueError`,
`unsupportedAlgorithm` and `notImplementedError` carry the exact message
raised by the source; `structError`, `indexError` and `keyError` model the
raw `struct.error`, `IndexError` and `KeyError` exceptions that escape
uncaught from `struct.unpack`, `six.indexbytes` and the curve dictionary
lookup respectively.
-/

set_option maxRecDepth 100000

abbrev Bytes := List Nat

deriving instance DecidableEq for Except

inductive PyError where
  | valueError (msg : String)
  | unsupportedAlgorithm (msg : String)
  | notImplementedError (msg : String)
  | structError
  | indexError
  | keyError
deriving DecidableEq

/-- Modelled from the spec: `utils.int_from_bytes(data, byteorder='big')`
(the `utils` module is not under `src/`); the spec describes it as the
big-endian unsigned-integer interpretation of a byte sequence. -/
def int_from_bytes (bs : Bytes) : Nat :=
  bs.foldl (fun acc b => acc * 256 + b) 0

/-- ASCII byte values of a string literal (models a Python `b'...'` literal). -/
def strBytes (s : String) : Bytes :=
  s.data.map Char.toNat

/-- Source `_read_next_string`: `struct.unpack('>I', data[:4])` raises a raw
`struct.error` when fewer than 4 bytes remain (the slice is shorter than 4);
otherwise the result is `(data[4:4+str_len], data[4+str_len:])`, where the
Python slices clamp at the end of the buffer. -/
def _read_next_string (data : Bytes) : Except PyError (Bytes × Bytes) :=
  if data.length < 4 then .error .structError
  else
    let str_len := int_from_bytes (data.take 4)
    .ok ((data.drop 4).take str_len, (data.drop 4).drop str_len)

/-- Source `_read_next_mpint`: delegates to `_read_next_string` and interprets
the bytes via `utils.int_from_bytes(..., byteorder='big', signed=False)`. -/
def _read_next_mpint (data : Bytes) : Except PyError (Nat × Bytes) :=
  match _read_next_string data with
  | .error e => .error e
  | .ok (mpint_data, rest) => .ok (int_from_bytes mpint_data, rest)

/-!
Base64 transport decoding. `base64.b64decode` in the Python 2 standard
library calls `binascii.a2b_base64`; characters outside the base64 alphabet
are skipped, a pad character terminates decoding only in the positions
CPython accepts, and a leftover bit count at the end raises an error
(re-raised by `base64.b64decode` as the `TypeError` that the source
catches). The model below follows CPython 2's `binascii.c`.
-/

/-- Value of a byte in the base64 alphabet (CPython's `table_a2b_base64`),
or `none` for a byte outside the alphabet. -/
def b64val (c : Nat) : Option Nat :=
  if 65 ≤ c ∧ c ≤ 90 then some (c - 65)
  else if 97 ≤ c ∧ c ≤ 122 then some (c - 97 + 26)
  else if 48 ≤ c ∧ c ≤ 57 then some (c - 48 + 52)
  else if c = 43 then some 62
  else if c = 47 then some 63
  else none

/-- First byte of the list that is a base64 alphabet byte or the pad byte
(CPython's `binascii_find_valid`, starting after the current position). -/
def findValidB64 : Bytes → Option Nat
  | [] => none
  | c :: rest =>
    if (c ≤ 127 ∧ (b64val c).isSome) ∨ c = 61 then some c else findValidB64 rest

/-- Main loop of CPython 2's `binascii.a2b_base64`: state is the quad
position, the pending bit accumulator, the pending bit count and the output
accumulated in reverse. -/
def a2b_base64_aux (quad_pos leftchar leftbits : Nat) (acc : Bytes) :
    Bytes → Except Unit Bytes
  | [] => if leftbits ≠ 0 then .error () else .ok acc.reverse
  | c :: rest =>
    if 127 < c ∨ c = 13 ∨ c = 10 ∨ c = 32 then
      a2b_base64_aux quad_pos leftchar leftbits acc rest
    else if c = 61 then
      if quad_pos < 2 ∨ (quad_pos = 2 ∧ findValidB64 rest ≠ some 61) then
        a2b_base64_aux quad_pos leftchar leftbits acc rest
      else .ok acc.reverse
    else
      match b64val c with
      | none => a2b_base64_aux quad_pos leftchar leftbits acc rest
      | some v =>
        if 8 ≤ leftbits + 6 then
          a2b_base64_aux ((quad_pos + 1) % 4)
            ((leftchar * 64 + v) % 2 ^ (leftbits + 6 - 8)) (leftbits + 6 - 8)
            ((leftchar * 64 + v) / 2 ^ (leftbits + 6 - 8) % 256 :: acc) rest
        else
          a2b_base64_aux ((quad_pos + 1) % 4) (leftchar * 64 + v) (leftbits + 6)
            acc rest

/-- Python 2 `base64.b64decode`; an error models the `TypeError` it raises
on incorrect padding. -/
def b64decodePy (s : Bytes) : Except Unit Bytes :=
  a2b_base64_aux 0 0 0 [] s

/-- Byte of the base64 alphabet encoding a 6-bit value (standard alphabet,
as written by `base64.b64encode`). -/
def b64encChar (v : Nat) : Nat :=
  if v < 26 then 65 + v
  else if v < 52 then 97 + (v - 26)
  else if v < 62 then 48 + (v - 52)
  else if v = 62 then 43
  else 47

/-- Standard base64 encoding with padding, used to build well-formed
records for the round-trip and scenario theorems. -/
def b64encode : Bytes → Bytes
  | [] => []
  | [a] => [b64encChar (a / 4), b64encChar (a % 4 * 16), 61, 61]
  | [a, b] =>
      [b64encChar (a / 4), b64encChar (a % 4 * 16 + b / 16),
       b64encChar (b % 16 * 4), 61]
  | a :: b :: c :: rest =>
      b64encChar (a / 4) :: b64encChar (a % 4 * 16 + b / 16) ::
        b64encChar (b % 16 * 4 + c / 64) :: b64encChar (c % 64) ::
        b64encode rest

/-- Python `data.split(b' ')`: split on every single space byte, keeping
empty fields. -/
def splitOnSpace : Bytes → List Bytes
  | [] => [[]]
  | b :: rest =>
    if b = 32 then [] :: splitOnSpace rest
    else
      match splitOnSpace rest with
      | [] => [[b]]
      | f :: fs => (b :: f) :: fs

/-- The three curves the decoder can produce (`ec.SECP256R1`, `ec.SECP384R1`,
`ec.SECP521R1`). -/
inductive ECCurve where
  | secp256r1
  | secp384r1
  | secp521r1
deriving DecidableEq

/-- Modelled from the spec: `curve.key_size` in bits (the `ec` module is not
under `src/`); the spec fixes the enumeration to the 256/384/521-bit NIST
curves. -/
def ECCurve.key_size : ECCurve → Nat
  | .secp256r1 => 256
  | .secp384r1 => 384
  | .secp521r1 => 521

/-- Decoded key parameters handed to the external key-construction backend
(`rsa.RSAPublicNumbers`, `dsa.DSAPublicNumbers`,
`ec.EllipticCurvePublicNumbers`); the backend call itself is out of scope. -/
inductive SSHPublicKey where
  | rsa (e n : Nat)
  | dss (p q g y : Nat)
  | ecdsa (curve : ECCurve) (x y : Nat)
deriving DecidableEq

/-- Source `_load_ssh_rsa_public_key` (numbers extraction; the backend key
construction is out of scope). -/
def _load_ssh_rsa_public_key (_key_type decoded_data : Bytes) :
    Except PyError SSHPublicKey :=
  match _read_next_mpint decoded_data with
  | .error err => .error err
  | .ok (e, rest) =>
    match _read_next_mpint rest with
    | .error err => .error err
    | .ok (n, rest) =>
      if rest ≠ [] then .error (.valueError (r"Key body contains extra bytes."))
      else .ok (.rsa e n)

/-- Source `_load_ssh_dss_public_key`. -/
def _load_ssh_dss_public_key (_key_type decoded_data : Bytes) :
    Except PyError SSHPublicKey :=
  match _read_next_mpint decoded_data with
  | .error err => .error err
  | .ok (p, rest) =>
    match _read_next_mpint rest with
    | .error err => .error err
    | .ok (q, rest) =>
      match _read_next_mpint rest with
      | .error err => .error err
      | .ok (g, rest) =>
        match _read_next_mpint rest with
        | .error err => .error err
        | .ok (y, rest) =>
          if rest ≠ [] then
            .error (.valueError (r"Key body contains extra bytes."))
          else .ok (.dss p q g y)

/-- The curve dictionary of `_load_ssh_ecdsa_public_key`; lookup of an
unknown name raises a raw `KeyError`. -/
def curveTable (curve_name : Bytes) : Except PyError ECCurve :=
  if curve_name = strBytes (r"nistp256") then .ok .secp256r1
  else if curve_name = strBytes (r"nistp384") then .ok .secp384r1
  else if curve_name = strBytes (r"nistp521") then .ok .secp521r1
  else .error .keyError

/-- Third-party `six.indexbytes(data, i)`: the byte at index `i`, raising a
raw `IndexError` when the index is out of range. -/
def indexbytes (data : Bytes) (i : Nat) : Except PyError Nat :=
  match data.get? i with
  | some b => .ok b
  | none => .error .indexError

/-- Source `_load_ssh_ecdsa_public_key`. -/
def _load_ssh_ecdsa_public_key (expected_key_type decoded_data : Bytes) :
    Except PyError SSHPublicKey :=
  match _read_next_string decoded_data with
  | .error err => .error err
  | .ok (curve_name, rest) =>
    match _read_next_string rest with
    | .error err => .error err
    | .ok (data, rest) =>
      if expected_key_type ≠ strBytes (r"ecdsa-sha2-") ++ curve_name then
        .error (.valueError
          (r"Key header and key body contain different key type values."))
      else if rest ≠ [] then
        .error (.valueError (r"Key body contains extra bytes."))
      else
        match curveTable curve_name with
        | .error err => .error err
        | .ok curve =>
          match indexbytes data 0 with
          | .error err => .error err
          | .ok b0 =>
            if b0 ≠ 4 then
              .error (.notImplementedError
                (r"Compressed elliptic curve points are not supported"))
            else if data.length ≠ 1 + 2 * ((curve.key_size + 7) / 8) then
              .error (.valueError (r"Malformed key bytes"))
            else
              .ok (.ecdsa curve
                (int_from_bytes ((data.drop 1).take ((curve.key_size + 7) / 8)))
                (int_from_bytes (data.drop (1 + (curve.key_size + 7) / 8))))

/-- Body of `load_ssh_public_key` after the field-count check, as a function
of `key_parts[0]` and `key_parts[1]`: loader dispatch on the label, base64
decoding of the body, the inner type-tag read and comparison, and the call
to the selected loader. -/
def dispatchAndDecode (key_type key_body : Bytes) :
    Except PyError SSHPublicKey :=
  match
    (if key_type = strBytes (r"ssh-rsa") then .ok _load_ssh_rsa_public_key
     else if key_type = strBytes (r"ssh-dss") then .ok _load_ssh_dss_public_key
     else if key_type = strBytes (r"ecdsa-sha2-nistp256") ∨
         key_type = strBytes (r"ecdsa-sha2-nistp384") ∨
         key_type = strBytes (r"ecdsa-sha2-nistp521") then
       .ok _load_ssh_ecdsa_public_key
     else .error (.unsupportedAlgorithm (r"Key type is not supported."))
     : Except PyError (Bytes → Bytes → Except PyError SSHPublicKey))
  with
  | .error err => .error err
  | .ok loader =>
    match b64decodePy key_body with
    | .error _ => .error (.valueError (r"Key is not in the proper format."))
    | .ok decoded_data =>
      match _read_next_string decoded_data with
      | .error err => .error err
      | .ok (inner_key_type, rest) =>
        if inner_key_type ≠ key_type then
          .error (.valueError
            (r"Key header and key body contain different key type values."))
        else loader key_type rest

/-- Source `load_ssh_public_key` (the `backend` parameter is out of scope):
splits the record on single spaces, requires 2 or 3 fields, selects the
loader from the label, base64-decodes the body, reads and compares the inner
type tag, and runs the loader. -/
def load_ssh_public_key (data : Bytes) : Except PyError SSHPublicKey :=
  let key_parts := splitOnSpace data
  if ¬ (key_parts.length = 2 ∨ key_parts.length = 3) then
    .error (.valueError
      (r"Key is not in the proper format or contains extra data."))
  else dispatchAndDecode (key_parts.getD 0 []) (key_parts.getD 1 [])

/-!
Encoder built from the field layouts of the spec (§6): `string(s)` is a
4-byte big-endian length followed by the bytes, an mpint is the string of a
big-endian representation of the integer, and a record is
`label SP base64(blob)`. These definitions follow the spec's words and are
used to state the encode-then-decode claims.
-/

/-- Modelled from the spec: `uint32(n)`, the 4-byte big-endian length
prefix. -/
def uint32be (n : Nat) : Bytes :=
  [n / 2 ^ 24 % 256, n / 2 ^ 16 % 256, n / 2 ^ 8 % 256, n % 256]

/-- Modelled from the spec: `string(s) = uint32(len(s)) | s`. -/
def sshString (s : Bytes) : Bytes :=
  uint32be s.length ++ s

/-- Modelled from the spec: RSA blob layout
`string(type-tag) | mpint(e) | mpint(n)`, with each mpint given by a
big-endian byte representation of the integer. -/
def encodeRSABlob (eb nb : Bytes) : Bytes :=
  sshString (strBytes (r"ssh-rsa")) ++ sshString eb ++ sshString nb

/-- Modelled from the spec: DSS blob layout
`string(type-tag) | mpint(p) | mpint(q) | mpint(g) | mpint(y)`. -/
def encodeDSSBlob (pb qb gb yb : Bytes) : Bytes :=
  sshString (strBytes (r"ssh-dss")) ++ sshString pb ++ sshString qb ++
    sshString gb ++ sshString yb

/-- Wire name of a curve (`nistp256`, `nistp384`, `nistp521`). -/
def curveNameBytes : ECCurve → Bytes
  | .secp256r1 => strBytes (r"nistp256")
  | .secp384r1 => strBytes (r"nistp384")
  | .secp521r1 => strBytes (r"nistp521")

/-- Label `ecdsa-sha2-<curve-name>` of a curve. -/
def ecLabel (c : ECCurve) : Bytes :=
  strBytes (r"ecdsa-sha2-") ++ curveNameBytes c

/-- Modelled from the spec: ECDSA blob layout
`string(type-tag) | string(curve-name) | string(point)` with
`point = 0x04 | X-bytes | Y-bytes`. -/
def encodeECDSABlob (c : ECCurve) (xb yb : Bytes) : Bytes :=
  sshString (ecLabel c) ++ sshString (curveNameBytes c) ++
    sshString (4 :: (xb ++ yb))

/-- Modelled from the spec: a two-field record
`<key-type-label> SP <standard-base64(blob)>`. -/
def encodeRecord (label blob : Bytes) : Bytes :=
  label ++ 32 :: b64encode blob

/-- Tests whether a decode result is the raw `KeyError` of the curve-table
lookup. -/
def hitsKeyError : Except PyError SSHPublicKey → Bool
  | .error .keyError => true
  | _ => false

/-- Tests whether a decode result is an `UnsupportedAlgorithm` error. -/
def isUnsupportedAlgorithm : Except PyError SSHPublicKey → Bool
  | .error (.unsupportedAlgorithm _) => true
  | _ => false

/-- Tests whether a decode result is a `ValueError` (any message). -/
def isValueError : Except PyError SSHPublicKey → Bool
  | .error (.valueError _) => true
  | _ => false

example : strBytes (r"ssh-rsa") = [115, 115, 104, 45, 114, 115, 97] := by
  decide

example : _read_next_string [0, 0, 0, 2, 7, 8, 9] = .ok ([7, 8], [9]) := by
  decide

example : _read_next_string [0, 0, 0] = .error .structError := by decide

example : _read_next_mpint [0, 0, 0, 2, 1, 0, 5] = .ok (256, [5]) := by decide

example : b64encode (strBytes (r"ab")) = strBytes (r"YWI=") := by decide

example : b64decodePy (strBytes (r"YWI=")) = .ok (strBytes (r"ab")) := by
  decide

example : b64decodePy (strBytes (r"A")) = .error () := by decide

example : b64decodePy (strBytes (r"!!!")) = .ok [] := by decide

example : splitOnSpace (strBytes (r"a bc c")) =
    [strBytes (r"a"), strBytes (r"bc"), strBytes (r"c")] := by decide

example : splitOnSpace [] = [[]] := by decide

/-! Helper lemmas about the primitive reader and the big-endian
interpretation. -/

theorem int_from_bytes_foldl (bs : Bytes) (acc : Nat) :
    bs.foldl (fun a b => a * 256 + b) acc =
      acc * 256 ^ bs.length + bs.foldl (fun a b => a * 256 + b) 0 := by
  induction bs generalizing acc with
  | nil => simp
  | cons b bs ih =>
    simp only [List.foldl_cons, List.length_cons]
    rw [ih (acc * 256 + b), ih (0 * 256 + b)]
    ring

theorem int_from_bytes_nil : int_from_bytes [] = 0 := rfl

theorem int_from_bytes_cons (b : Nat) (bs : Bytes) :
    int_from_bytes (b :: bs) = b * 256 ^ bs.length + int_from_bytes bs := by
  simp only [int_from_bytes, List.foldl_cons]
  rw [int_from_bytes_foldl bs (0 * 256 + b)]
  ring

theorem int_from_bytes_uint32be (n : Nat) (h : n < 4294967296) :
    int_from_bytes (uint32be n) = n := by
  simp only [uint32be, int_from_bytes, List.foldl]
  omega

theorem read_next_string_sshString (s r : Bytes) (h : s.length < 4294967296) :
    _read_next_string (sshString s ++ r) = .ok (s, r) := by
  have hform : sshString s ++ r =
      s.length / 2 ^ 24 % 256 :: s.length / 2 ^ 16 % 256 ::
        s.length / 2 ^ 8 % 256 :: s.length % 256 :: (s ++ r) := by
    simp [sshString, uint32be]
  rw [hform]
  unfold _read_next_string
  rw [if_neg (by simp)]
  have htake : (s.length / 2 ^ 24 % 256 :: s.length / 2 ^ 16 % 256 ::
      s.length / 2 ^ 8 % 256 :: s.length % 256 :: (s ++ r)).take 4 =
      uint32be s.length := by
    simp [uint32be]
  have hdrop : (s.length / 2 ^ 24 % 256 :: s.length / 2 ^ 16 % 256 ::
      s.length / 2 ^ 8 % 256 :: s.length % 256 :: (s ++ r)).drop 4 = s ++ r := by
    simp
  rw [htake, hdrop, int_from_bytes_uint32be s.length h]
  simp [List.take_left, List.drop_left]

/-! Helper lemmas about the record splitter. -/

theorem splitOnSpace_no_space (t : Bytes) (h : 32 ∉ t) :
    splitOnSpace t = [t] := by
  induction t with
  | nil => rfl
  | cons b rest ih =>
    have hb : ¬ b = 32 := fun e => h (by simp [e])
    simp only [splitOnSpace, if_neg hb]
    rw [ih (fun hm => h (List.mem_cons_of_mem b hm))]

theorem b64encChar_fact : ∀ v, v < 64 →
    b64encChar v ≤ 127 ∧ b64encChar v ≠ 13 ∧ b64encChar v ≠ 10 ∧
      b64encChar v ≠ 32 ∧ b64encChar v ≠ 61 ∧ b64val (b64encChar v) = some v := by
  decide

theorem a2b_aux_enc_cons (v : Nat) (hv : v < 64) (qp lc lb : Nat)
    (acc rest : Bytes) :
    a2b_base64_aux qp lc lb acc (b64encChar v :: rest) =
      if 8 ≤ lb + 6 then
        a2b_base64_aux ((qp + 1) % 4) ((lc * 64 + v) % 2 ^ (lb + 6 - 8))
          (lb + 6 - 8) ((lc * 64 + v) / 2 ^ (lb + 6 - 8) % 256 :: acc) rest
      else
        a2b_base64_aux ((qp + 1) % 4) (lc * 64 + v) (lb + 6) acc rest := by
  obtain ⟨h1, h2, h3, h4, h5, h6⟩ := b64encChar_fact v hv
  conv_lhs => rw [a2b_base64_aux]
  rw [if_neg (by omega), if_neg h5, h6]

theorem a2b_step1 (a : Nat) (ha : a < 256) (acc rest : Bytes) :
    a2b_base64_aux 0 0 0 acc (b64encChar (a / 4) :: rest) =
      a2b_base64_aux 1 (a / 4) 6 acc rest := by
  rw [a2b_aux_enc_cons _ (by omega), if_neg (by omega)]
  norm_num

theorem a2b_step2 (a b : Nat) (ha : a < 256) (hb : b < 256) (acc rest : Bytes) :
    a2b_base64_aux 1 (a / 4) 6 acc
        (b64encChar (a % 4 * 16 + b / 16) :: rest) =
      a2b_base64_aux 2 (b / 16) 4 (a :: acc) rest := by
  rw [a2b_aux_enc_cons _ (by omega), if_pos (by omega)]
  congr 1 <;> try omega
  congr 1 <;> omega

theorem a2b_step3 (b c : Nat) (hb : b < 256) (hc : c < 256) (acc rest : Bytes) :
    a2b_base64_aux 2 (b / 16) 4 acc
        (b64encChar (b % 16 * 4 + c / 64) :: rest) =
      a2b_base64_aux 3 (c / 64) 2 (b :: acc) rest := by
  rw [a2b_aux_enc_cons _ (by omega), if_pos (by omega)]
  congr 1 <;> try omega
  congr 1 <;> omega

theorem a2b_step4 (c : Nat) (hc : c < 256) (acc rest : Bytes) :
    a2b_base64_aux 3 (c / 64) 2 acc (b64encChar (c % 64) :: rest) =
      a2b_base64_aux 0 0 0 (c :: acc) rest := by
  rw [a2b_aux_enc_cons _ (by omega), if_pos (by omega)]
  congr 1 <;> try omega
  congr 1 <;> omega

theorem a2b_term_nil (qp lc : Nat) (acc : Bytes) :
    a2b_base64_aux qp lc 0 acc [] = .ok acc.reverse := by
  simp [a2b_base64_aux]

theorem a2b_term_pad2 (lc : Nat) (acc : Bytes) :
    a2b_base64_aux 2 lc 4 acc [61, 61] = .ok acc.reverse := by
  simp [a2b_base64_aux, findValidB64, b64val]

theorem a2b_term_pad1 (lc : Nat) (acc : Bytes) :
    a2b_base64_aux 3 lc 2 acc [61] = .ok acc.reverse := by
  simp [a2b_base64_aux]

theorem a2b_b64encode (bs : Bytes) (h : ∀ x ∈ bs, x < 256) (acc : Bytes) :
    a2b_base64_aux 0 0 0 acc (b64encode bs) = .ok (acc.reverse ++ bs) := by
  induction bs using b64encode.induct generalizing acc with
  | case1 => simp [b64encode, a2b_term_nil]
  | case2 a =>
    have ha : a < 256 := h a (by simp)
    have e2 : a % 4 * 16 = a % 4 * 16 + 0 / 16 := by simp
    simp only [b64encode]
    rw [a2b_step1 a ha, e2, a2b_step2 a 0 ha (by omega), a2b_term_pad2]
    simp
  | case3 a b =>
    have ha : a < 256 := h a (by simp)
    have hb : b < 256 := h b (by simp)
    have e3 : b % 16 * 4 = b % 16 * 4 + 0 / 64 := by simp
    simp only [b64encode]
    rw [a2b_step1 a ha, a2b_step2 a b ha hb, e3, a2b_step3 b 0 hb (by omega),
      a2b_term_pad1]
    simp
  | case4 a b c rest ih =>
    have ha : a < 256 := h a (by simp)
    have hb : b < 256 := h b (by simp)
    have hc : c < 256 := h c (by simp)
    simp only [b64encode]
    rw [a2b_step1 a ha, a2b_step2 a b ha hb, a2b_step3 b c hb hc,
      a2b_step4 c hc, ih (fun x hx => h x (by simp [hx]))]
    simp

theorem b64decode_b64encode (bs : Bytes) (h : ∀ x ∈ bs, x < 256) :
    b64decodePy (b64encode bs) = .ok bs := by
  have := a2b_b64encode bs h []
  simpa [b64decodePy] using this

theorem b64encChar_ne_32 (v : Nat) : b64encChar v ≠ 32 := by
  unfold b64encChar
  repeat' split
  all_goals omega

theorem b64encode_no_space (bs : Bytes) : 32 ∉ b64encode bs := by
  induction bs using b64encode.induct with
  | case1 => simp [b64encode]
  | case2 a =>
    intro hmem
    simp only [b64encode, List.mem_cons, List.not_mem_nil, or_false] at hmem
    rcases hmem with h | h | h | h
    · exact b64encChar_ne_32 _ h.symm
    · exact b64encChar_ne_32 _ h.symm
    · omega
    · omega
  | case3 a b =>
    intro hmem
    simp only [b64encode, List.mem_cons, List.not_mem_nil, or_false] at hmem
    rcases hmem with h | h | h | h
    · exact b64encChar_ne_32 _ h.symm
    · exact b64encChar_ne_32 _ h.symm
    · exact b64encChar_ne_32 _ h.symm
    · omega
  | case4 a b c rest ih =>
    intro hmem
    simp only [b64encode, List.mem_cons] at hmem
    rcases hmem with h | h | h | h | h
    · exact b64encChar_ne_32 _ h.symm
    · exact b64encChar_ne_32 _ h.symm
    · exact b64encChar_ne_32 _ h.symm
    · exact b64encChar_ne_32 _ h.symm
    · exact ih h

theorem splitOnSpace_append (t r : Bytes) (h : 32 ∉ t) :
    splitOnSpace (t ++ 32 :: r) = t :: splitOnSpace r := by
  induction t with
  | nil => simp [splitOnSpace]
  | cons b rest ih =>
    have hb : ¬ b = 32 := fun e => h (by simp [e])
    simp only [List.cons_append, splitOnSpace, if_neg hb, List.append_eq]
    rw [ih (fun hm => h (List.mem_cons_of_mem b hm))]

/-! Facts about the labels and the curve table. -/

theorem curveTable_curveNameBytes (c : ECCurve) :
    curveTable (curveNameBytes c) = .ok c := by
  cases c <;> decide

theorem ecLabel_recognized (c : ECCurve) :
    ecLabel c = strBytes (r"ecdsa-sha2-nistp256") ∨
      ecLabel c = strBytes (r"ecdsa-sha2-nistp384") ∨
      ecLabel c = strBytes (r"ecdsa-sha2-nistp521") := by
  cases c <;> decide

theorem ecLabel_eq_append (c : ECCurve) :
    ecLabel c = strBytes (r"ecdsa-sha2-") ++ curveNameBytes c := rfl

theorem curveNameBytes_inj (c : ECCurve) (cn : Bytes)
    (h : ecLabel c = strBytes (r"ecdsa-sha2-") ++ cn) :
    cn = curveNameBytes c := by
  have h2 : strBytes (r"ecdsa-sha2-") ++ curveNameBytes c =
      strBytes (r"ecdsa-sha2-") ++ cn := (ecLabel_eq_append c) ▸ h
  exact (List.append_cancel_left h2).symm

/-! Characterization of the dispatcher on recognized labels. -/

theorem dispatch_rsa (body blob r0 : Bytes)
    (hb64 : b64decodePy body = .ok blob)
    (htag : _read_next_string blob = .ok (strBytes (r"ssh-rsa"), r0)) :
    dispatchAndDecode (strBytes (r"ssh-rsa")) body =
      _load_ssh_rsa_public_key (strBytes (r"ssh-rsa")) r0 := by
  unfold dispatchAndDecode
  rw [if_pos rfl, hb64]
  simp [htag]

theorem dispatch_dss (body blob r0 : Bytes)
    (hb64 : b64decodePy body = .ok blob)
    (htag : _read_next_string blob = .ok (strBytes (r"ssh-dss"), r0)) :
    dispatchAndDecode (strBytes (r"ssh-dss")) body =
      _load_ssh_dss_public_key (strBytes (r"ssh-dss")) r0 := by
  unfold dispatchAndDecode
  rw [if_neg (by decide), if_pos rfl, hb64]
  simp [htag]

theorem dispatch_ecdsa (c : ECCurve) (body blob r0 : Bytes)
    (hb64 : b64decodePy body = .ok blob)
    (htag : _read_next_string blob = .ok (ecLabel c, r0)) :
    dispatchAndDecode (ecLabel c) body =
      _load_ssh_ecdsa_public_key (ecLabel c) r0 := by
  unfold dispatchAndDecode
  rw [if_neg (by cases c <;> decide), if_neg (by cases c <;> decide),
    if_pos (by cases c <;> decide), hb64]
  simp [htag]

theorem dispatch_b64_fail (t body : Bytes)
    (ht : t = strBytes (r"ssh-rsa") ∨ t = strBytes (r"ssh-dss") ∨
      t = strBytes (r"ecdsa-sha2-nistp256") ∨
      t = strBytes (r"ecdsa-sha2-nistp384") ∨
      t = strBytes (r"ecdsa-sha2-nistp521"))
    (hb : b64decodePy body = .error ()) :
    dispatchAndDecode t body =
      .error (.valueError (r"Key is not in the proper format.")) := by
  unfold dispatchAndDecode
  rcases ht with h | h | h | h | h <;> subst h
  · rw [if_pos rfl, hb]
  · rw [if_neg (by decide), if_pos rfl, hb]
  · rw [if_neg (by decide), if_neg (by decide), if_pos (by decide), hb]
  · rw [if_neg (by decide), if_neg (by decide), if_pos (by decide), hb]
  · rw [if_neg (by decide), if_neg (by decide), if_pos (by decide), hb]

theorem dispatch_tag_read (t body blob : Bytes)
    (ht : t = strBytes (r"ssh-rsa") ∨ t = strBytes (r"ssh-dss") ∨
      t = strBytes (r"ecdsa-sha2-nistp256") ∨
      t = strBytes (r"ecdsa-sha2-nistp384") ∨
      t = strBytes (r"ecdsa-sha2-nistp521"))
    (hb64 : b64decodePy body = .ok blob)
    (htag : _read_next_string blob = .error .structError) :
    dispatchAndDecode t body = .error .structError := by
  unfold dispatchAndDecode
  rcases ht with h | h | h | h | h <;> subst h
  · rw [if_pos rfl, hb64]
    simp [htag]
  · rw [if_neg (by decide), if_pos rfl, hb64]
    simp [htag]
  · rw [if_neg (by decide), if_neg (by decide), if_pos (by decide), hb64]
    simp [htag]
  · rw [if_neg (by decide), if_neg (by decide), if_pos (by decide), hb64]
    simp [htag]
  · rw [if_neg (by decide), if_neg (by decide), if_pos (by decide), hb64]
    simp [htag]

theorem dispatch_tag_mismatch (t body blob tag r0 : Bytes)
    (ht : t = strBytes (r"ssh-rsa") ∨ t = strBytes (r"ssh-dss") ∨
      t = strBytes (r"ecdsa-sha2-nistp256") ∨
      t = strBytes (r"ecdsa-sha2-nistp384") ∨
      t = strBytes (r"ecdsa-sha2-nistp521"))
    (hb64 : b64decodePy body = .ok blob)
    (htag : _read_next_string blob = .ok (tag, r0))
    (hne : tag ≠ t) :
    dispatchAndDecode t body =
      .error (.valueError
        (r"Key header and key body contain different key type values.")) := by
  unfold dispatchAndDecode
  rcases ht with h | h | h | h | h <;> subst h
  · rw [if_pos rfl, hb64]
    simp [htag, hne]
  · rw [if_neg (by decide), if_pos rfl, hb64]
    simp [htag, hne]
  · rw [if_neg (by decide), if_neg (by decide), if_pos (by decide), hb64]
    simp [htag, hne]
  · rw [if_neg (by decide), if_neg (by decide), if_pos (by decide), hb64]
    simp [htag, hne]
  · rw [if_neg (by decide), if_neg (by decide), if_pos (by decide), hb64]
    simp [htag, hne]

/-! Happy-path behaviour of the three loaders on well-formed field
sequences. -/

theorem read_next_string_sshString_nil (s : Bytes) (h : s.length < 4294967296) :
    _read_next_string (sshString s) = .ok (s, []) := by
  have := read_next_string_sshString s [] h
  simpa using this

theorem read_next_mpint_sshString (s r : Bytes) (h : s.length < 4294967296) :
    _read_next_mpint (sshString s ++ r) = .ok (int_from_bytes s, r) := by
  unfold _read_next_mpint
  rw [read_next_string_sshString s r h]

theorem read_next_mpint_sshString_nil (s : Bytes) (h : s.length < 4294967296) :
    _read_next_mpint (sshString s) = .ok (int_from_bytes s, []) := by
  unfold _read_next_mpint
  rw [read_next_string_sshString_nil s h]

theorem rsa_loader_ok (kt eb nb : Bytes)
    (he : eb.length < 4294967296) (hn : nb.length < 4294967296) :
    _load_ssh_rsa_public_key kt (sshString eb ++ sshString nb) =
      .ok (.rsa (int_from_bytes eb) (int_from_bytes nb)) := by
  unfold _load_ssh_rsa_public_key
  simp only [read_next_mpint_sshString eb (sshString nb) he,
    read_next_mpint_sshString_nil nb hn, ne_eq, not_true_eq_false,
    if_false, ite_false]

theorem dss_loader_ok (kt pb qb gb yb : Bytes)
    (hp : pb.length < 4294967296) (hq : qb.length < 4294967296)
    (hg : gb.length < 4294967296) (hy : yb.length < 4294967296) :
    _load_ssh_dss_public_key kt
        (sshString pb ++ (sshString qb ++ (sshString gb ++ sshString yb))) =
      .ok (.dss (int_from_bytes pb) (int_from_bytes qb) (int_from_bytes gb)
        (int_from_bytes yb)) := by
  unfold _load_ssh_dss_public_key
  simp only [read_next_mpint_sshString pb
      (sshString qb ++ (sshString gb ++ sshString yb)) hp,
    read_next_mpint_sshString qb (sshString gb ++ sshString yb) hq,
    read_next_mpint_sshString gb (sshString yb) hg,
    read_next_mpint_sshString_nil yb hy]
  simp

theorem curveNameBytes_length (c : ECCurve) : (curveNameBytes c).length = 8 := by
  cases c <;> rfl

theorem key_size_bytes (c : ECCurve) :
    (c.key_size + 7) / 8 = 32 ∨ (c.key_size + 7) / 8 = 48 ∨
      (c.key_size + 7) / 8 = 66 := by
  cases c <;> simp [ECCurve.key_size]

theorem ecdsa_loader_ok (c : ECCurve) (xb yb : Bytes)
    (hx : xb.length = (c.key_size + 7) / 8)
    (hy : yb.length = (c.key_size + 7) / 8) :
    _load_ssh_ecdsa_public_key (ecLabel c)
        (sshString (curveNameBytes c) ++ sshString (4 :: (xb ++ yb))) =
      .ok (.ecdsa c (int_from_bytes xb) (int_from_bytes yb)) := by
  have hw : (c.key_size + 7) / 8 = 32 ∨ (c.key_size + 7) / 8 = 48 ∨
      (c.key_size + 7) / 8 = 66 := key_size_bytes c
  have hplen : (4 :: (xb ++ yb)).length < 4294967296 := by
    simp only [List.length_cons, List.length_append]
    omega
  have hidx : indexbytes (4 :: (xb ++ yb)) 0 = .ok 4 := rfl
  have hlen_ok : ¬ ((4 :: (xb ++ yb)).length ≠
      1 + 2 * ((c.key_size + 7) / 8)) := by
    simp only [List.length_cons, List.length_append]
    omega
  have hxpart : ((4 :: (xb ++ yb)).drop 1).take ((c.key_size + 7) / 8) = xb := by
    simp only [List.drop_succ_cons, List.drop_zero]
    rw [← hx, List.take_left]
  have hypart : (4 :: (xb ++ yb)).drop (1 + (c.key_size + 7) / 8) = yb := by
    rw [Nat.add_comm, List.drop_succ_cons, ← hx, List.drop_left]
  unfold _load_ssh_ecdsa_public_key
  simp only [read_next_string_sshString (curveNameBytes c)
      (sshString (4 :: (xb ++ yb))) (by rw [curveNameBytes_length]; omega),
    read_next_string_sshString_nil (4 :: (xb ++ yb)) hplen,
    if_neg (not_not_intro (ecLabel_eq_append c)),
    curveTable_curveNameBytes c, hidx, if_neg hlen_ok, hxpart, hypart,
    ne_eq, not_true_eq_false, if_false, ite_false]

theorem ecdsa_loader_label_mismatch (t r0 cn r1 pt r2 : Bytes)
    (hcurve : _read_next_string r0 = .ok (cn, r1))
    (hpoint : _read_next_string r1 = .ok (pt, r2))
    (hne : t ≠ strBytes (r"ecdsa-sha2-") ++ cn) :
    _load_ssh_ecdsa_public_key t r0 =
      .error (.valueError
        (r"Key header and key body contain different key type values.")) := by
  unfold _load_ssh_ecdsa_public_key
  simp only [hcurve, hpoint, if_pos hne]

theorem ecdsa_loader_point_stage (c : ECCurve) (r0 r1 pt : Bytes)
    (hcurve : _read_next_string r0 = .ok (curveNameBytes c, r1))
    (hpoint : _read_next_string r1 = .ok (pt, [])) :
    _load_ssh_ecdsa_public_key (ecLabel c) r0 =
      match indexbytes pt 0 with
      | .error err => .error err
      | .ok b0 =>
        if b0 ≠ 4 then
          .error (.notImplementedError
            (r"Compressed elliptic curve points are not supported"))
        else if pt.length ≠ 1 + 2 * ((c.key_size + 7) / 8) then
          .error (.valueError (r"Malformed key bytes"))
        else
          .ok (.ecdsa c
            (int_from_bytes ((pt.drop 1).take ((c.key_size + 7) / 8)))
            (int_from_bytes (pt.drop (1 + (c.key_size + 7) / 8)))) := by
  unfold _load_ssh_ecdsa_public_key
  simp only [hcurve, hpoint, if_neg (not_not_intro (ecLabel_eq_append c)),
    ne_eq, not_true_eq_false, if_false, ite_false, not_false_eq_true,
    curveTable_curveNameBytes c]

/-! Error classification helpers: which raw exception each primitive can
raise, and Boolean tests on results used in the claims. -/

theorem read_next_string_error (data : Bytes) (e : PyError)
    (h : _read_next_string data = .error e) : e = .structError := by
  unfold _read_next_string at h
  split at h
  · injection h with h2
    exact h2.symm
  · simp at h

theorem read_next_mpint_error (data : Bytes) (e : PyError)
    (h : _read_next_mpint data = .error e) : e = .structError := by
  unfold _read_next_mpint at h
  cases h2 : _read_next_string data with
  | error e2 =>
    rw [h2] at h
    injection h with h3
    exact h3 ▸ read_next_string_error data e2 h2
  | ok v =>
    rw [h2] at h
    simp at h

theorem indexbytes_error (d : Bytes) (i : Nat) (e : PyError)
    (h : indexbytes d i = .error e) : e = .indexError := by
  unfold indexbytes at h
  cases h2 : d.get? i with
  | none =>
    rw [h2] at h
    injection h with h3
    exact h3.symm
  | some b =>
    rw [h2] at h
    simp at h

theorem rsa_loader_no_keyError (kt d : Bytes) :
    hitsKeyError (_load_ssh_rsa_public_key kt d) = false := by
  unfold _load_ssh_rsa_public_key
  cases h1 : _read_next_mpint d with
  | error e => rw [read_next_mpint_error d e h1]; rfl
  | ok v =>
    obtain ⟨e1, r1⟩ := v
    dsimp only
    cases h2 : _read_next_mpint r1 with
    | error e => rw [read_next_mpint_error r1 e h2]; rfl
    | ok v2 =>
      obtain ⟨n1, r2⟩ := v2
      dsimp only
      split <;> rfl

theorem dss_loader_no_keyError (kt d : Bytes) :
    hitsKeyError (_load_ssh_dss_public_key kt d) = false := by
  unfold _load_ssh_dss_public_key
  cases h1 : _read_next_mpint d with
  | error e => rw [read_next_mpint_error d e h1]; rfl
  | ok v =>
    obtain ⟨p1, r1⟩ := v
    dsimp only
    cases h2 : _read_next_mpint r1 with
    | error e => rw [read_next_mpint_error r1 e h2]; rfl
    | ok v2 =>
      obtain ⟨q1, r2⟩ := v2
      dsimp only
      cases h3 : _read_next_mpint r2 with
      | error e => rw [read_next_mpint_error r2 e h3]; rfl
      | ok v3 =>
        obtain ⟨g1, r3⟩ := v3
        dsimp only
        cases h4 : _read_next_mpint r3 with
        | error e => rw [read_next_mpint_error r3 e h4]; rfl
        | ok v4 =>
          obtain ⟨y1, r4⟩ := v4
          dsimp only
          split <;> rfl

theorem ecdsa_loader_no_keyError (c : ECCurve) (r0 : Bytes) :
    hitsKeyError (_load_ssh_ecdsa_public_key (ecLabel c) r0) = false := by
  unfold _load_ssh_ecdsa_public_key
  cases h1 : _read_next_string r0 with
  | error e => rw [read_next_string_error r0 e h1]; rfl
  | ok v =>
    obtain ⟨cn, r1⟩ := v
    dsimp only
    cases h2 : _read_next_string r1 with
    | error e => rw [read_next_string_error r1 e h2]; rfl
    | ok v2 =>
      obtain ⟨pt, r2⟩ := v2
      dsimp only
      by_cases hl : ecLabel c = strBytes (r"ecdsa-sha2-") ++ cn
      · have hcn := (curveNameBytes_inj c cn hl).symm
        subst hcn
        rw [if_neg (not_not_intro hl)]
        split
        · rfl
        · rw [curveTable_curveNameBytes c]
          cases h3 : indexbytes pt 0 with
          | error e => rw [indexbytes_error pt 0 e h3]; rfl
          | ok b0 =>
            dsimp only
            split
            · rfl
            · split <;> rfl
      · rw [if_pos hl]
        rfl

theorem dispatch_no_keyError (t b : Bytes) :
    hitsKeyError (dispatchAndDecode t b) = false := by
  have hcase : ∀ loader, (loader = _load_ssh_rsa_public_key ∨
      loader = _load_ssh_dss_public_key ∨
      (loader = _load_ssh_ecdsa_public_key ∧
        ∃ c : ECCurve, t = ecLabel c)) →
      hitsKeyError (match b64decodePy b with
        | .error _ =>
            .error (.valueError (r"Key is not in the proper format."))
        | .ok decoded_data =>
          match _read_next_string decoded_data with
          | .error err => .error err
          | .ok (inner_key_type, rest) =>
            if inner_key_type ≠ t then
              .error (.valueError
                (r"Key header and key body contain different key type values."))
            else loader t rest) = false := by
    intro loader hload
    cases hb : b64decodePy b with
    | error e => rfl
    | ok blob =>
      dsimp only
      cases htag : _read_next_string blob with
      | error e => rw [read_next_string_error blob e htag]; rfl
      | ok v =>
        obtain ⟨tag, r0⟩ := v
        dsimp only
        split
        · rfl
        · rcases hload with h | h | ⟨h, c, hc⟩
          · rw [h]; exact rsa_loader_no_keyError t r0
          · rw [h]; exact dss_loader_no_keyError t r0
          · rw [h, hc]; exact ecdsa_loader_no_keyError c r0
  unfold dispatchAndDecode
  by_cases h1 : t = strBytes (r"ssh-rsa")
  · rw [if_pos h1]
    exact hcase _ (Or.inl rfl)
  rw [if_neg h1]
  by_cases h2 : t = strBytes (r"ssh-dss")
  · rw [if_pos h2]
    exact hcase _ (Or.inr (Or.inl rfl))
  rw [if_neg h2]
  by_cases h3 : t = strBytes (r"ecdsa-sha2-nistp256") ∨
      t = strBytes (r"ecdsa-sha2-nistp384") ∨
      t = strBytes (r"ecdsa-sha2-nistp521")
  · rw [if_pos h3]
    refine hcase _ (Or.inr (Or.inr ⟨rfl, ?_⟩))
    rcases h3 with h | h | h
    · exact ⟨.secp256r1, by rw [h]; decide⟩
    · exact ⟨.secp384r1, by rw [h]; decide⟩
    · exact ⟨.secp521r1, by rw [h]; decide⟩
  · rw [if_neg h3]
    rfl

/-! Characterization of the entry point on split records. -/

theorem load_parts (data t b : Bytes) (rest : List Bytes)
    (hs : splitOnSpace data = t :: b :: rest) (hr : rest.length ≤ 1) :
    load_ssh_public_key data = dispatchAndDecode t b := by
  unfold load_ssh_public_key
  rw [hs]
  have hlen : (t :: b :: rest).length = 2 ∨ (t :: b :: rest).length = 3 := by
    simp only [List.length_cons]
    omega
  rw [if_neg (not_not_intro hlen)]
  rfl

theorem load_two_fields (t b : Bytes) (ht : 32 ∉ t) (hb : 32 ∉ b) :
    load_ssh_public_key (t ++ 32 :: b) = dispatchAndDecode t b := by
  refine load_parts _ t b [] ?_ (by simp)
  rw [splitOnSpace_append t b ht, splitOnSpace_no_space b hb]

theorem load_three_fields (t b c : Bytes) (ht : 32 ∉ t) (hb : 32 ∉ b)
    (hc : 32 ∉ c) :
    load_ssh_public_key (t ++ 32 :: (b ++ 32 :: c)) = dispatchAndDecode t b := by
  refine load_parts _ t b [c] ?_ (by simp)
  rw [splitOnSpace_append t _ ht, splitOnSpace_append b _ hb,
    splitOnSpace_no_space c hc]




/-! Claim theorems. -/

/-- C1: the claim states that a declared string/mpint length exceeding the
remaining buffer (or fewer than 4 bytes for the length prefix) fails with a
`TruncatedInput` error kind. The code has no such check: a declared length
of 9 with one remaining byte silently returns the truncated byte sequence
and no error, a full RSA record with such a truncated mpint decodes
successfully, and a short length prefix raises a raw `struct.error` rather
than any taxonomy error. -/
theorem C1_missing_truncation_check :
    _read_next_string [0, 0, 0, 9, 2] = .ok ([2], []) ∧
    _read_next_string [0, 0] = .error .structError ∧
    load_ssh_public_key
      (encodeRecord (strBytes (r"ssh-rsa"))
        (sshString (strBytes (r"ssh-rsa")) ++ sshString [1] ++
          [0, 0, 0, 9, 2])) = .ok (.rsa 1 2) := by
  exact ⟨by decide, by decide, by decide⟩

/-- C2 counterexample: an ECDSA record whose blob carries the unrecognized
curve name `nistp999` fails with the `TypeMismatch` `ValueError`, not with
`UnsupportedAlgorithm` as the claim states. -/
theorem C2_counterexample :
    load_ssh_public_key
      (encodeRecord (strBytes (r"ecdsa-sha2-nistp256"))
        (sshString (strBytes (r"ecdsa-sha2-nistp256")) ++
          (sshString (strBytes (r"nistp999")) ++ sshString [4]))) =
      .error (.valueError
        (r"Key header and key body contain different key type values.")) ∧
    isUnsupportedAlgorithm (load_ssh_public_key
      (encodeRecord (strBytes (r"ecdsa-sha2-nistp256"))
        (sshString (strBytes (r"ecdsa-sha2-nistp256")) ++
          (sshString (strBytes (r"nistp999")) ++ sshString [4])))) = false := by
  exact ⟨by decide, by decide⟩

/-- C2 amended: when the ECDSA decoder reads, via the public entry point, a
curve-name string that is not one of the three recognized names, decoding
fails with the `TypeMismatch` `ValueError` of the reconstructed-label check
(the outer label is necessarily one of the three recognized ecdsa labels, so
it cannot equal `ecdsa-sha2-` ++ an unrecognized curve name); the curve
table's own failure branch is a raw `KeyError` and is never reached. -/
theorem C2_unrecognized_curve_fails_type_mismatch
    (data b blob r0 cn r1 pt r2 : Bytes) (rest : List Bytes) (c : ECCurve)
    (hsplit : splitOnSpace data = ecLabel c :: b :: rest)
    (hrest : rest.length ≤ 1)
    (hb64 : b64decodePy b = .ok blob)
    (htag : _read_next_string blob = .ok (ecLabel c, r0))
    (hcurve : _read_next_string r0 = .ok (cn, r1))
    (hpoint : _read_next_string r1 = .ok (pt, r2))
    (hcn : ¬ (cn = strBytes (r"nistp256") ∨ cn = strBytes (r"nistp384") ∨
      cn = strBytes (r"nistp521"))) :
    load_ssh_public_key data =
      .error (.valueError
        (r"Key header and key body contain different key type values.")) := by
  have hne : ecLabel c ≠ strBytes (r"ecdsa-sha2-") ++ cn := by
    intro he
    have h2 := curveNameBytes_inj c cn he
    subst h2
    cases c
    · exact hcn (Or.inl rfl)
    · exact hcn (Or.inr (Or.inl rfl))
    · exact hcn (Or.inr (Or.inr rfl))
  rw [load_parts data _ _ rest hsplit hrest,
    dispatch_ecdsa c b blob r0 hb64 htag,
    ecdsa_loader_label_mismatch _ r0 cn r1 pt r2 hcurve hpoint hne]

/-- C2 witness: the amended theorem applied to the concrete `nistp999`
record. -/
theorem C2_witness :
    load_ssh_public_key
      (encodeRecord (strBytes (r"ecdsa-sha2-nistp256"))
        (sshString (strBytes (r"ecdsa-sha2-nistp256")) ++
          (sshString (strBytes (r"nistp999")) ++ sshString [4, 5]))) =
      .error (.valueError
        (r"Key header and key body contain different key type values.")) := by
  exact C2_unrecognized_curve_fails_type_mismatch _
    (b64encode (sshString (strBytes (r"ecdsa-sha2-nistp256")) ++
      (sshString (strBytes (r"nistp999")) ++ sshString [4, 5])))
    (sshString (strBytes (r"ecdsa-sha2-nistp256")) ++
      (sshString (strBytes (r"nistp999")) ++ sshString [4, 5]))
    (sshString (strBytes (r"nistp999")) ++ sshString [4, 5])
    (strBytes (r"nistp999")) (sshString [4, 5]) [4, 5] [] []
    .secp256r1 (by decide) (by decide) (by decide) (by decide) (by decide)
    (by decide) (by decide)

/-- C3 counterexample: the record `ssh-ed25519 A` has a base64 body that
fails to decode, yet decoding fails with `UnsupportedAlgorithm`, not with
the `MalformedRecord` `ValueError` the claim requires: the dispatcher runs
before base64 decoding, so the claim's "regardless of whether the record's
type label is recognized" is false. -/
theorem C3_counterexample :
    b64decodePy [65] = .error () ∧
    load_ssh_public_key (strBytes (r"ssh-ed25519") ++ 32 :: [65]) =
      .error (.unsupportedAlgorithm (r"Key type is not supported.")) ∧
    isValueError
      (load_ssh_public_key (strBytes (r"ssh-ed25519") ++ 32 :: [65])) =
      false := by
  exact ⟨by decide, by decide, by decide⟩

/-- C3 amended: for a record whose label is recognized, a base64 body that
fails to decode makes decoding fail with the `MalformedRecord` `ValueError`
(`Key is not in the proper format.`); for an unrecognized label the
dispatcher fails first with `UnsupportedAlgorithm`. -/
theorem C3_base64_failure_malformed_record
    (data t b : Bytes) (rest : List Bytes)
    (hsplit : splitOnSpace data = t :: b :: rest)
    (hrest : rest.length ≤ 1)
    (ht : t = strBytes (r"ssh-rsa") ∨ t = strBytes (r"ssh-dss") ∨
      t = strBytes (r"ecdsa-sha2-nistp256") ∨
      t = strBytes (r"ecdsa-sha2-nistp384") ∨
      t = strBytes (r"ecdsa-sha2-nistp521"))
    (hb : b64decodePy b = .error ()) :
    load_ssh_public_key data =
      .error (.valueError (r"Key is not in the proper format.")) := by
  rw [load_parts data t b rest hsplit hrest]
  exact dispatch_b64_fail t b ht hb

/-- C3 witness: the amended theorem applied to the record `ssh-rsa A`. -/
theorem C3_witness :
    load_ssh_public_key (strBytes (r"ssh-rsa") ++ 32 :: [65]) =
      .error (.valueError (r"Key is not in the proper format.")) := by
  exact C3_base64_failure_malformed_record _ (strBytes (r"ssh-rsa")) [65] []
    (by decide) (by decide) (Or.inl rfl) (by decide)

/-- C5 counterexample: an `ecdsa-sha2-nistp256` record whose blob carries
curve name `nistp384` but a truncated point string: the base64 body decodes
and the outer label differs from the reconstructed `ecdsa-sha2-nistp384`,
yet decoding fails with a raw `struct.error` (the decoder reads the point
string before comparing labels), not with `TypeMismatch` as the claim
states. -/
theorem C5_counterexample :
    load_ssh_public_key
      (encodeRecord (strBytes (r"ecdsa-sha2-nistp256"))
        (sshString (strBytes (r"ecdsa-sha2-nistp256")) ++
          (sshString (strBytes (r"nistp384")) ++ [0, 0]))) =
      .error .structError ∧
    isValueError (load_ssh_public_key
      (encodeRecord (strBytes (r"ecdsa-sha2-nistp256"))
        (sshString (strBytes (r"ecdsa-sha2-nistp256")) ++
          (sshString (strBytes (r"nistp384")) ++ [0, 0])))) = false := by
  exact ⟨by decide, by decide⟩

/-- C5 amended: for a record with a recognized label whose base64 body
decodes, (a) if the type tag embedded as the first length-prefixed string of
the blob differs from the outer label, decoding fails with the
`TypeMismatch` `ValueError`; and (b) for an ECDSA record whose embedded tag
matches, if the curve-name and point-string reads both succeed and the outer
label differs from `ecdsa-sha2-` ++ the blob's curve name, decoding fails
with the same `TypeMismatch` `ValueError` (if the point-string read hits a
truncated buffer the decoder instead raises a raw `struct.error` first). -/
theorem C5_label_mismatch_type_mismatch :
    (∀ (data t b blob tag r0 : Bytes) (rest : List Bytes),
      splitOnSpace data = t :: b :: rest → rest.length ≤ 1 →
      (t = strBytes (r"ssh-rsa") ∨ t = strBytes (r"ssh-dss") ∨
        t = strBytes (r"ecdsa-sha2-nistp256") ∨
        t = strBytes (r"ecdsa-sha2-nistp384") ∨
        t = strBytes (r"ecdsa-sha2-nistp521")) →
      b64decodePy b = .ok blob →
      _read_next_string blob = .ok (tag, r0) →
      tag ≠ t →
      load_ssh_public_key data =
        .error (.valueError
          (r"Key header and key body contain different key type values."))) ∧
    (∀ (data b blob r0 cn r1 pt r2 : Bytes) (rest : List Bytes) (c : ECCurve),
      splitOnSpace data = ecLabel c :: b :: rest → rest.length ≤ 1 →
      b64decodePy b = .ok blob →
      _read_next_string blob = .ok (ecLabel c, r0) →
      _read_next_string r0 = .ok (cn, r1) →
      _read_next_string r1 = .ok (pt, r2) →
      ecLabel c ≠ strBytes (r"ecdsa-sha2-") ++ cn →
      load_ssh_public_key data =
        .error (.valueError
          (r"Key header and key body contain different key type values."))) := by
  constructor
  · intro data t b blob tag r0 rest hsplit hrest ht hb64 htag hne
    rw [load_parts data t b rest hsplit hrest]
    exact dispatch_tag_mismatch t b blob tag r0 ht hb64 htag hne
  · intro data b blob r0 cn r1 pt r2 rest c hsplit hrest hb64 htag hcurve
      hpoint hne
    rw [load_parts data _ _ rest hsplit hrest,
      dispatch_ecdsa c b blob r0 hb64 htag,
      ecdsa_loader_label_mismatch _ r0 cn r1 pt r2 hcurve hpoint hne]

/-- C5 witness: part (a) on an `ssh-rsa` record whose blob embeds the tag
`ssh-dss`, and part (b) on an `ecdsa-sha2-nistp256` record whose blob
carries curve name `nistp384` with a complete point string. -/
theorem C5_witness :
    load_ssh_public_key
      (strBytes (r"ssh-rsa") ++ 32 ::
        b64encode (sshString (strBytes (r"ssh-dss")))) =
      .error (.valueError
        (r"Key header and key body contain different key type values.")) ∧
    load_ssh_public_key
      (encodeRecord (strBytes (r"ecdsa-sha2-nistp256"))
        (sshString (strBytes (r"ecdsa-sha2-nistp256")) ++
          (sshString (strBytes (r"nistp384")) ++ sshString [4]))) =
      .error (.valueError
        (r"Key header and key body contain different key type values.")) := by
  constructor
  · exact C5_label_mismatch_type_mismatch.1 _ (strBytes (r"ssh-rsa"))
      (b64encode (sshString (strBytes (r"ssh-dss"))))
      (sshString (strBytes (r"ssh-dss"))) (strBytes (r"ssh-dss")) [] []
      (by decide) (by decide) (Or.inl rfl) (by decide) (by decide) (by decide)
  · exact C5_label_mismatch_type_mismatch.2 _
      (b64encode (sshString (strBytes (r"ecdsa-sha2-nistp256")) ++
        (sshString (strBytes (r"nistp384")) ++ sshString [4])))
      (sshString (strBytes (r"ecdsa-sha2-nistp256")) ++
        (sshString (strBytes (r"nistp384")) ++ sshString [4]))
      (sshString (strBytes (r"nistp384")) ++ sshString [4])
      (strBytes (r"nistp384")) (sshString [4]) [4] [] [] .secp256r1
      (by decide) (by decide) (by decide) (by decide) (by decide) (by decide)
      (by decide)

/-- C4: for an ECDSA record (reached through the entry point with matching
labels and no trailing bytes), a point string whose first byte is 0x02 or
0x03 fails with the `CompressedPointUnsupported` `NotImplementedError`, and
a point string whose first byte is 0x04 but whose total length differs from
`1 + 2 * ceil(curve_bit_size / 8)` fails with the `MalformedPoint`
`ValueError`. -/
theorem C4_point_marker_and_length :
    (∀ (data b blob r0 r1 pt : Bytes) (rest : List Bytes) (c : ECCurve)
      (p0 : Nat),
      splitOnSpace data = ecLabel c :: b :: rest → rest.length ≤ 1 →
      b64decodePy b = .ok blob →
      _read_next_string blob = .ok (ecLabel c, r0) →
      _read_next_string r0 = .ok (curveNameBytes c, r1) →
      _read_next_string r1 = .ok (p0 :: pt, []) →
      (p0 = 2 ∨ p0 = 3) →
      load_ssh_public_key data =
        .error (.notImplementedError
          (r"Compressed elliptic curve points are not supported"))) ∧
    (∀ (data b blob r0 r1 pt : Bytes) (rest : List Bytes) (c : ECCurve),
      splitOnSpace data = ecLabel c :: b :: rest → rest.length ≤ 1 →
      b64decodePy b = .ok blob →
      _read_next_string blob = .ok (ecLabel c, r0) →
      _read_next_string r0 = .ok (curveNameBytes c, r1) →
      _read_next_string r1 = .ok (4 :: pt, []) →
      (4 :: pt).length ≠ 1 + 2 * ((c.key_size + 7) / 8) →
      load_ssh_public_key data =
        .error (.valueError (r"Malformed key bytes"))) := by
  constructor
  · intro data b blob r0 r1 pt rest c p0 hsplit hrest hb64 htag hcurve hpoint
      hp0
    rw [load_parts data _ _ rest hsplit hrest,
      dispatch_ecdsa c b blob r0 hb64 htag,
      ecdsa_loader_point_stage c r0 r1 (p0 :: pt) hcurve hpoint]
    have hidx : indexbytes (p0 :: pt) 0 = .ok p0 := rfl
    simp only [hidx]
    rw [if_pos (by omega)]
  · intro data b blob r0 r1 pt rest c hsplit hrest hb64 htag hcurve hpoint
      hlen
    rw [load_parts data _ _ rest hsplit hrest,
      dispatch_ecdsa c b blob r0 hb64 htag,
      ecdsa_loader_point_stage c r0 r1 (4 :: pt) hcurve hpoint]
    have hidx : indexbytes (4 :: pt) 0 = .ok 4 := rfl
    simp only [hidx]
    rw [if_neg (by omega), if_pos hlen]

/-- C4 witness: part one on a point string `[0x02]`, part two on a point
string `[0x04]` (length 1 instead of 65), both for `nistp256`. -/
theorem C4_witness :
    load_ssh_public_key
      (encodeRecord (strBytes (r"ecdsa-sha2-nistp256"))
        (sshString (strBytes (r"ecdsa-sha2-nistp256")) ++
          (sshString (strBytes (r"nistp256")) ++ sshString [2]))) =
      .error (.notImplementedError
        (r"Compressed elliptic curve points are not supported")) ∧
    load_ssh_public_key
      (encodeRecord (strBytes (r"ecdsa-sha2-nistp256"))
        (sshString (strBytes (r"ecdsa-sha2-nistp256")) ++
          (sshString (strBytes (r"nistp256")) ++ sshString [4]))) =
      .error (.valueError (r"Malformed key bytes")) := by
  constructor
  · exact C4_point_marker_and_length.1 _
      (b64encode (sshString (strBytes (r"ecdsa-sha2-nistp256")) ++
        (sshString (strBytes (r"nistp256")) ++ sshString [2])))
      (sshString (strBytes (r"ecdsa-sha2-nistp256")) ++
        (sshString (strBytes (r"nistp256")) ++ sshString [2]))
      (sshString (strBytes (r"nistp256")) ++ sshString [2])
      (sshString [2]) [] [] .secp256r1 2
      (by decide) (by decide) (by decide) (by decide) (by decide) (by decide)
      (Or.inl rfl)
  · exact C4_point_marker_and_length.2 _
      (b64encode (sshString (strBytes (r"ecdsa-sha2-nistp256")) ++
        (sshString (strBytes (r"nistp256")) ++ sshString [4])))
      (sshString (strBytes (r"ecdsa-sha2-nistp256")) ++
        (sshString (strBytes (r"nistp256")) ++ sshString [4]))
      (sshString (strBytes (r"nistp256")) ++ sshString [4])
      (sshString [4]) [] [] .secp256r1
      (by decide) (by decide) (by decide) (by decide) (by decide) (by decide)
      (by decide)

/-- C9: an ECDSA record that passes splitting, base64 decoding, the
inner-tag match, the reconstructed-label match and the no-trailing-bytes
check, but whose point string has length zero, fails with a raw
`IndexError` from `six.indexbytes(data, 0)` — not with
`CompressedPointUnsupported` or any other error kind of the taxonomy. -/
theorem C9_empty_point_index_error
    (data b blob r0 r1 : Bytes) (rest : List Bytes) (c : ECCurve)
    (hsplit : splitOnSpace data = ecLabel c :: b :: rest)
    (hrest : rest.length ≤ 1)
    (hb64 : b64decodePy b = .ok blob)
    (htag : _read_next_string blob = .ok (ecLabel c, r0))
    (hcurve : _read_next_string r0 = .ok (curveNameBytes c, r1))
    (hpoint : _read_next_string r1 = .ok ([], [])) :
    load_ssh_public_key data = .error .indexError := by
  rw [load_parts data _ _ rest hsplit hrest,
    dispatch_ecdsa c b blob r0 hb64 htag,
    ecdsa_loader_point_stage c r0 r1 [] hcurve hpoint]
  rfl

/-- C9 witness: the concrete `nistp256` record with an empty point
string. -/
theorem C9_witness :
    load_ssh_public_key
      (encodeRecord (strBytes (r"ecdsa-sha2-nistp256"))
        (sshString (strBytes (r"ecdsa-sha2-nistp256")) ++
          (sshString (strBytes (r"nistp256")) ++ sshString []))) =
      .error .indexError := by
  exact C9_empty_point_index_error _
    (b64encode (sshString (strBytes (r"ecdsa-sha2-nistp256")) ++
      (sshString (strBytes (r"nistp256")) ++ sshString [])))
    (sshString (strBytes (r"ecdsa-sha2-nistp256")) ++
      (sshString (strBytes (r"nistp256")) ++ sshString []))
    (sshString (strBytes (r"nistp256")) ++ sshString [])
    (sshString []) [] .secp256r1
    (by decide) (by decide) (by decide) (by decide) (by decide) (by decide)

theorem mem_append_lt (l1 l2 : Bytes) (h1 : ∀ x ∈ l1, x < 256)
    (h2 : ∀ x ∈ l2, x < 256) : ∀ x ∈ l1 ++ l2, x < 256 := by
  intro x hx
  rcases List.mem_append.mp hx with h | h
  · exact h1 x h
  · exact h2 x h

theorem uint32be_lt (n : Nat) : ∀ x ∈ uint32be n, x < 256 := by
  intro x hx
  simp only [uint32be, List.mem_cons, List.not_mem_nil, or_false] at hx
  rcases hx with h | h | h | h <;> omega

theorem sshString_lt (s : Bytes) (h : ∀ x ∈ s, x < 256) :
    ∀ x ∈ sshString s, x < 256 :=
  mem_append_lt _ _ (uint32be_lt _) h

theorem ecLabel_lt (c : ECCurve) : ∀ x ∈ ecLabel c, x < 256 := by
  cases c <;> decide

theorem curveNameBytes_lt (c : ECCurve) : ∀ x ∈ curveNameBytes c, x < 256 := by
  cases c <;> decide

theorem ecLabel_no_space (c : ECCurve) : 32 ∉ ecLabel c := by
  cases c <;> decide

theorem ecLabel_length_lt (c : ECCurve) : (ecLabel c).length < 4294967296 := by
  cases c <;> decide

/-- C6: for every supported key type and every well-formed blob produced by
an encoder following the specified field layouts (RSA:
`string(tag)|mpint(e)|mpint(n)`; DSS: `string(tag)|mpint(p..y)`; ECDSA:
`string(tag)|string(curve-name)|string(0x04‖X‖Y)` with full-width
coordinates), decoding through the public entry point succeeds and returns
exactly the integer parameters (and curve identifier) that were encoded. -/
theorem C6_encode_then_decode :
    (∀ (e n : Nat) (eb nb : Bytes),
      int_from_bytes eb = e → int_from_bytes nb = n →
      eb.length < 4294967296 → nb.length < 4294967296 →
      (∀ x ∈ eb, x < 256) → (∀ x ∈ nb, x < 256) →
      load_ssh_public_key
        (encodeRecord (strBytes (r"ssh-rsa")) (encodeRSABlob eb nb)) =
        .ok (.rsa e n)) ∧
    (∀ (p q g y : Nat) (pb qb gb yb : Bytes),
      int_from_bytes pb = p → int_from_bytes qb = q →
      int_from_bytes gb = g → int_from_bytes yb = y →
      pb.length < 4294967296 → qb.length < 4294967296 →
      gb.length < 4294967296 → yb.length < 4294967296 →
      (∀ x ∈ pb, x < 256) → (∀ x ∈ qb, x < 256) →
      (∀ x ∈ gb, x < 256) → (∀ x ∈ yb, x < 256) →
      load_ssh_public_key
        (encodeRecord (strBytes (r"ssh-dss")) (encodeDSSBlob pb qb gb yb)) =
        .ok (.dss p q g y)) ∧
    (∀ (c : ECCurve) (x y : Nat) (xb yb : Bytes),
      int_from_bytes xb = x → int_from_bytes yb = y →
      xb.length = (c.key_size + 7) / 8 → yb.length = (c.key_size + 7) / 8 →
      (∀ v ∈ xb, v < 256) → (∀ v ∈ yb, v < 256) →
      load_ssh_public_key
        (encodeRecord (ecLabel c) (encodeECDSABlob c xb yb)) =
        .ok (.ecdsa c x y)) := by
  refine ⟨?_, ?_, ?_⟩
  · intro e n eb nb he hn hel hnl heb hnb
    have hassoc : encodeRSABlob eb nb =
        sshString (strBytes (r"ssh-rsa")) ++ (sshString eb ++ sshString nb) := by
      simp [encodeRSABlob, List.append_assoc]
    have hblob : ∀ x ∈ sshString (strBytes (r"ssh-rsa")) ++
        (sshString eb ++ sshString nb), x < 256 :=
      mem_append_lt _ _ (sshString_lt _ (by decide))
        (mem_append_lt _ _ (sshString_lt _ heb) (sshString_lt _ hnb))
    rw [hassoc]
    unfold encodeRecord
    rw [load_two_fields _ _ (by decide) (b64encode_no_space _),
      dispatch_rsa _ _ _ (b64decode_b64encode _ hblob)
        (read_next_string_sshString _ _ (by decide)),
      rsa_loader_ok _ eb nb hel hnl, he, hn]
  · intro p q g y pb qb gb yb hp hq hg hy hpl hql hgl hyl hpb hqb hgb hyb
    have hassoc : encodeDSSBlob pb qb gb yb =
        sshString (strBytes (r"ssh-dss")) ++
          (sshString pb ++ (sshString qb ++ (sshString gb ++ sshString yb))) := by
      simp [encodeDSSBlob, List.append_assoc]
    have hblob : ∀ x ∈ sshString (strBytes (r"ssh-dss")) ++
        (sshString pb ++ (sshString qb ++ (sshString gb ++ sshString yb))),
        x < 256 :=
      mem_append_lt _ _ (sshString_lt _ (by decide))
        (mem_append_lt _ _ (sshString_lt _ hpb)
          (mem_append_lt _ _ (sshString_lt _ hqb)
            (mem_append_lt _ _ (sshString_lt _ hgb) (sshString_lt _ hyb))))
    rw [hassoc]
    unfold encodeRecord
    rw [load_two_fields _ _ (by decide) (b64encode_no_space _),
      dispatch_dss _ _ _ (b64decode_b64encode _ hblob)
        (read_next_string_sshString _ _ (by decide)),
      dss_loader_ok _ pb qb gb yb hpl hql hgl hyl, hp, hq, hg, hy]
  · intro c x y xb yb hx hy hxl hyl hxb hyb
    have hassoc : encodeECDSABlob c xb yb =
        sshString (ecLabel c) ++ (sshString (curveNameBytes c) ++
          sshString (4 :: (xb ++ yb))) := by
      simp [encodeECDSABlob, List.append_assoc]
    have hpt : ∀ v ∈ (4 : Nat) :: (xb ++ yb), v < 256 := by
      intro v hv
      rcases List.mem_cons.mp hv with h | h
      · omega
      · exact mem_append_lt _ _ hxb hyb v h
    have hblob : ∀ v ∈ sshString (ecLabel c) ++
        (sshString (curveNameBytes c) ++ sshString (4 :: (xb ++ yb))),
        v < 256 :=
      mem_append_lt _ _ (sshString_lt _ (ecLabel_lt c))
        (mem_append_lt _ _ (sshString_lt _ (curveNameBytes_lt c))
          (sshString_lt _ hpt))
    rw [hassoc]
    unfold encodeRecord
    rw [load_two_fields _ _ (ecLabel_no_space c) (b64encode_no_space _),
      dispatch_ecdsa c _ _ _ (b64decode_b64encode _ hblob)
        (read_next_string_sshString _ _ (ecLabel_length_lt c)),
      ecdsa_loader_ok c xb yb hxl hyl, hx, hy]

/-- C6 witness: the three parts at concrete parameters — RSA e=65537,
n=179; DSS p=7, q=5, g=3, y=2; ECDSA on `nistp256` with full-width
coordinates of values 7 and 9. -/
theorem C6_witness :
    load_ssh_public_key
      (encodeRecord (strBytes (r"ssh-rsa"))
        (encodeRSABlob [1, 0, 1] [0, 179])) = .ok (.rsa 65537 179) ∧
    load_ssh_public_key
      (encodeRecord (strBytes (r"ssh-dss"))
        (encodeDSSBlob [7] [5] [3] [2])) = .ok (.dss 7 5 3 2) ∧
    load_ssh_public_key
      (encodeRecord (ecLabel .secp256r1)
        (encodeECDSABlob .secp256r1 (List.replicate 31 0 ++ [7])
          (List.replicate 31 0 ++ [9]))) = .ok (.ecdsa .secp256r1 7 9) := by
  refine ⟨?_, ?_, ?_⟩
  · exact C6_encode_then_decode.1 65537 179 [1, 0, 1] [0, 179] (by decide)
      (by decide) (by decide) (by decide) (by decide) (by decide)
  · exact C6_encode_then_decode.2.1 7 5 3 2 [7] [5] [3] [2] (by decide)
      (by decide) (by decide) (by decide) (by decide) (by decide) (by decide)
      (by decide) (by decide) (by decide) (by decide) (by decide)
  · exact C6_encode_then_decode.2.2 .secp256r1 7 9
      (List.replicate 31 0 ++ [7]) (List.replicate 31 0 ++ [9]) (by decide)
      (by decide) (by decide) (by decide) (by decide) (by decide)

/-- C7: `_read_next_mpint` returns the big-endian unsigned-integer
interpretation of the bytes of the next length-prefixed string together
with the remaining bytes (whenever `_read_next_string` succeeds), the
interpretation of the empty byte sequence is 0, and the interpretation is
genuinely big-endian: each leading byte is weighted by 256 to the number of
remaining bytes. -/
theorem C7_read_mpint :
    (∀ (data s rest : Bytes), _read_next_string data = .ok (s, rest) →
      _read_next_mpint data = .ok (int_from_bytes s, rest)) ∧
    int_from_bytes [] = 0 ∧
    (∀ (b : Nat) (bs : Bytes),
      int_from_bytes (b :: bs) = b * 256 ^ bs.length + int_from_bytes bs) := by
  refine ⟨?_, rfl, int_from_bytes_cons⟩
  intro data s rest h
  unfold _read_next_mpint
  rw [h]

/-- C7 witness: the delegation applied to a concrete buffer holding a
zero-length string — the mpint value is 0 — and to a two-byte string. -/
theorem C7_witness :
    _read_next_mpint [0, 0, 0, 0, 9] = .ok (0, [9]) ∧
    _read_next_mpint [0, 0, 0, 2, 1, 0] = .ok (256, []) := by
  constructor
  · have h := C7_read_mpint.1 [0, 0, 0, 0, 9] [] [9] (by decide)
    simpa using h
  · have h := C7_read_mpint.1 [0, 0, 0, 2, 1, 0] [1, 0] [] (by decide)
    simpa using h

/-- C8: the decode result does not depend on the comment field — for
identical first two fields, a record without a comment and a record with
any space-free comment produce identical results. -/
theorem C8_comment_independent (t b c : Bytes)
    (ht : 32 ∉ t) (hb : 32 ∉ b) (hc : 32 ∉ c) :
    load_ssh_public_key (t ++ 32 :: b) =
      load_ssh_public_key (t ++ 32 :: (b ++ 32 :: c)) := by
  rw [load_two_fields t b ht hb, load_three_fields t b c ht hb hc]

/-- C8 witness: an `ssh-rsa` record with body `A`, without and with the
comment `c`. -/
theorem C8_witness :
    load_ssh_public_key (strBytes (r"ssh-rsa") ++ 32 :: [65]) =
      load_ssh_public_key
        (strBytes (r"ssh-rsa") ++ 32 :: ([65] ++ 32 :: [99])) := by
  exact C8_comment_independent (strBytes (r"ssh-rsa")) [65] [99]
    (by decide) (by decide) (by decide)

/-- C10: no input to the public entry point can reach the curve table's
failure branch — the dispatcher's exact-match label whitelist combined with
the reconstructed-label equality check forces the curve name to be one of
the three recognized names, so `load_ssh_public_key` never returns the raw
`KeyError`. -/
theorem C10_keyerror_unreachable (data : Bytes) :
    hitsKeyError (load_ssh_public_key data) = false := by
  unfold load_ssh_public_key
  dsimp only
  split
  · rfl
  · exact dispatch_no_keyError _ _
